import Mathlib

/-!
Verification of the page-grouping / letter-assembly subsystem and the
cross-corpus aggregation engine of the EpsFiles pipeline.

The definitions below are a shallow embedding of the Python sources
`PIPELINE/llm_group_letters.py` and `PIPELINE/generate_summary.py`:
Python dicts become association lists (insertion-ordered, as in CPython),
Python sets become duplicate-free lists built by insertion, JSON values
become the inductive `Json`, fallible steps become `Option`/`Except`, and
the external model calls become explicit function parameters so that
independence from them is provable.
-/

set_option maxHeartbeats 1000000

namespace EpsFiles

/-! ## JSON values

Model of the Python values produced by `json.load` / `json.loads`:
`None`, booleans, numbers (modelled as integers; the pipeline never
computes with fractional values), strings, arrays and objects.  Object
fields keep insertion order, as CPython dicts do. -/

inductive Json where
  | null
  | bool (b : Bool)
  | num (n : Int)
  | str (s : String)
  | arr (elems : List Json)
  | obj (fields : List (String × Json))
deriving Repr

mutual

def Json.beq : Json → Json → Bool
  | .null, .null => true
  | .bool a, .bool b => a == b
  | .num a, .num b => a == b
  | .str a, .str b => a == b
  | .arr a, .arr b => Json.beqList a b
  | .obj a, .obj b => Json.beqFields a b
  | _, _ => false

def Json.beqList : List Json → List Json → Bool
  | [], [] => true
  | a :: as, b :: bs => Json.beq a b && Json.beqList as bs
  | _, _ => false

def Json.beqFields : List (String × Json) → List (String × Json) → Bool
  | [], [] => true
  | (k, a) :: as, (k', b) :: bs => k == k' && Json.beq a b && Json.beqFields as bs
  | _, _ => false

end

mutual

theorem Json.beq_iff : ∀ a b : Json, Json.beq a b = true ↔ a = b
  | .null, .null => by simp [Json.beq]
  | .null, .bool _ | .null, .num _ | .null, .str _ | .null, .arr _ | .null, .obj _ => by
    simp [Json.beq]
  | .bool _, .null | .bool _, .num _ | .bool _, .str _ | .bool _, .arr _ | .bool _, .obj _ => by
    simp [Json.beq]
  | .bool _, .bool _ => by simp [Json.beq]
  | .num _, .null | .num _, .bool _ | .num _, .str _ | .num _, .arr _ | .num _, .obj _ => by
    simp [Json.beq]
  | .num _, .num _ => by simp [Json.beq]
  | .str _, .null | .str _, .bool _ | .str _, .num _ | .str _, .arr _ | .str _, .obj _ => by
    simp [Json.beq]
  | .str _, .str _ => by simp [Json.beq]
  | .arr _, .null | .arr _, .bool _ | .arr _, .num _ | .arr _, .str _ | .arr _, .obj _ => by
    simp [Json.beq]
  | .arr a, .arr b => by simp [Json.beq, Json.beqList_iff a b]
  | .obj _, .null | .obj _, .bool _ | .obj _, .num _ | .obj _, .str _ | .obj _, .arr _ => by
    simp [Json.beq]
  | .obj a, .obj b => by simp [Json.beq, Json.beqFields_iff a b]

theorem Json.beqList_iff : ∀ a b : List Json, Json.beqList a b = true ↔ a = b
  | [], [] => by simp [Json.beqList]
  | [], _ :: _ => by simp [Json.beqList]
  | _ :: _, [] => by simp [Json.beqList]
  | a :: as, b :: bs => by
    simp [Json.beqList, Json.beq_iff a b, Json.beqList_iff as bs]

theorem Json.beqFields_iff : ∀ a b : List (String × Json), Json.beqFields a b = true ↔ a = b
  | [], [] => by simp [Json.beqFields]
  | [], _ :: _ => by simp [Json.beqFields]
  | _ :: _, [] => by simp [Json.beqFields]
  | (k, a) :: as, (k', b) :: bs => by
    simp [Json.beqFields, Json.beq_iff a b, Json.beqFields_iff as bs, and_assoc]

end

instance : DecidableEq Json := fun a b => decidable_of_iff _ (Json.beq_iff a b)

instance : BEq Json := ⟨Json.beq⟩

instance : LawfulBEq Json where
  eq_of_beq h := (Json.beq_iff _ _).mp h
  rfl := (Json.beq_iff _ _).mpr rfl

/-- Python hashability of a JSON value: scalars can be dict keys and set
elements, lists and dicts cannot (using one raises `TypeError`). -/
def Json.hashable : Json → Bool
  | .arr _ => false
  | .obj _ => false
  | _ => true

/-- Python truthiness of a JSON value: `None`, `False`, `0`, `""`, `[]`
and the empty object are falsy, everything else is truthy. -/
def Json.truthy : Json → Bool
  | .null => false
  | .bool b => b
  | .num n => !(n == 0)
  | .str s => !(s == "")
  | .arr elems => !elems.isEmpty
  | .obj fields => !fields.isEmpty

/-- Key lookup in a JSON object: models Python `d.get(k)` / `k in d` for a
dict `d`.  On non-objects the lookup yields `none` (Python's `in` on a
string or list would do a containment test instead; the pipeline's inputs
use objects here). -/
def Json.get? (j : Json) (k : String) : Option Json :=
  match j with
  | .obj fields => (fields.find? (fun kv => kv.fst == k)).map (·.snd)
  | _ => none

def Json.isObj : Json → Bool
  | .obj _ => true
  | _ => false

/-- Python `str()` of a JSON scalar.  The pipeline only applies it to the
`document_metadata["date"]` field; the container cases (which Python would
render with `repr`) are abbreviated, no theorem depends on them. -/
def pyStr : Json → String
  | .null => "None"
  | .bool true => "True"
  | .bool false => "False"
  | .num n => toString n
  | .str s => s
  | .arr _ => "[...]"
  | .obj _ => "\x7b...\x7d"

/-! ## String helpers

Character-list implementations of the Python string operations used by the
pipeline, written structurally so that the kernel can evaluate them on
concrete inputs. -/

/-- Python `s.strip()`: remove leading and trailing whitespace. -/
def pyStrip (s : String) : String :=
  String.mk (((s.data.dropWhile Char.isWhitespace).reverse.dropWhile Char.isWhitespace).reverse)

/-- Python `k.split("_", 1)[0]`: the substring before the first
underscore, or the whole string when it has none. -/
def prefixOf (s : String) : String :=
  String.mk (s.data.takeWhile (fun c => !(c == '_')))

/-- Python `os.path.basename(p)`: the part of the path after the last
`/` separator. -/
def basename (p : String) : String :=
  String.mk ((p.data.reverse.takeWhile (fun c => !(c == '/'))).reverse)

def isPrefixList (p l : List Char) : Bool :=
  match p, l with
  | [], _ => true
  | _ :: _, [] => false
  | c :: cs, d :: ds => c == d && isPrefixList cs ds

/-- Python `sub in s` for strings: substring containment. -/
def containsSub (s sub : String) : Bool :=
  go s.data sub.data
where
  go : List Char → List Char → Bool
    | [], sub => sub.isEmpty
    | c :: rest, sub => isPrefixList sub (c :: rest) || go rest sub

/-- Python `f"L{i:04d}"`-style zero padding to width 4. -/
def fmt04 (i : Nat) : String :=
  let s := toString i
  if s.length < 4 then String.mk (List.replicate (4 - s.length) '0') ++ s else s

/-! ## Model of `PIPELINE/llm_group_letters.py` -/

/-- One page item as built in `main` (lines 291-310): the dict with keys
`filename` (the index key, kept outside this structure), `text` (the page
text read from disk, verbatim) and `source_path`.  `source_path` is
optional to mirror `item.get("source_path")`. -/
structure Item where
  text : String
  source_path : Option String
deriving Repr, DecidableEq

/-- One proposed letter from the model's grouping JSON: the fields
`assemble_letters` reads (`id`, `pages`) plus the fields it merely copies
into `meta.json` (`confidence`, `reason`).  `id` is `none` when the key is
absent, mirroring `letter.get("id")`. -/
structure Letter where
  id : Option String
  pages : List String
  confidence : Option Json
  reason : Option Json
deriving Repr, DecidableEq

/-- The parsed grouping response: `letters` plus the `unassigned_pages`
list, which `assemble_letters` never reads or writes. -/
structure Groups where
  letters : List Letter
  unassigned_pages : List String
deriving Repr, DecidableEq

/-- First-match association-list lookup: Python `d.get(k)` for a dict
represented as its insertion-ordered entry list (keys unique). -/
def dictGet (d : List (String × Item)) (k : String) : Option Item :=
  (d.find? (fun kv => kv.fst == k)).map (·.snd)

/-- Python `d[k] = v` on an insertion-ordered dict: replace the value in
place when the key is present, append the binding otherwise. -/
def dictInsert : List (String × Item) → String → Item → List (String × Item)
  | [], k, v => [(k, v)]
  | (a, b) :: rest, k, v =>
    if a == k then (k, v) :: rest else (a, b) :: dictInsert rest k v

/-- Lines 177-180: the secondary index from ID prefix (substring before
the first underscore) to item, built by iterating `items_by_filename` in
insertion order with plain assignment, hence last-write-wins per prefix. -/
def buildPrefixIndex (items : List (String × Item)) : List (String × Item) :=
  items.foldl (fun acc kv => dictInsert acc (prefixOf kv.fst) kv.snd) []

/-- Lines 196-199: resolve one page reference — exact lookup in
`items_by_filename` first, then, on a miss, lookup of the reference's own
prefix in the secondary index. -/
def resolveRef (itemsByFilename itemsByPref : List (String × Item)) (fn : String) : Option Item :=
  match dictGet itemsByFilename fn with
  | some item => some item
  | none => dictGet itemsByPref (prefixOf fn)

/-! ### Reference-ID extraction (lines 34, 164-168)

`HOUSE_OVERSIGHT_PATTERN = re.compile(r"house[_-]?oversight[_-]?(\d+)", re.IGNORECASE)`
and the fallback `re.findall(r"\d{4,}", value)`.  `findall` is modelled
directly: scan left to right, at each position attempt a match, on
success emit the capture and continue after the match, on failure advance
one character.  Digits are ASCII digits. -/

/-- Consume an optional `[_-]` separator (the following literal is never
`_` or `-`, so the greedy optional is deterministic). -/
def dropSep : List Char → List Char
  | [] => []
  | c :: rest => if c == '_' || c == '-' then rest else c :: rest

/-- Case-insensitive literal match; returns the remainder on success. -/
def matchCI : List Char → List Char → Option (List Char)
  | [], s => some s
  | _ :: _, [] => none
  | w :: ws, c :: cs => if c.toLower == w then matchCI ws cs else none

/-- Attempt `house[_-]?oversight[_-]?(\d+)` at the head of the input;
returns the captured digit run and the remainder after the match. -/
def tryHouseMatch (s : List Char) : Option (String × List Char) :=
  match matchCI "house".data s with
  | none => none
  | some r1 =>
    match matchCI "oversight".data (dropSep r1) with
    | none => none
    | some r3 =>
      let r4 := dropSep r3
      let digits := r4.takeWhile Char.isDigit
      if digits.isEmpty then none
      else some (String.mk digits, r4.dropWhile Char.isDigit)

def houseFindAllAux : Nat → List Char → List String
  | 0, _ => []
  | _ + 1, [] => []
  | fuel + 1, c :: rest =>
    match tryHouseMatch (c :: rest) with
    | some (d, rem) => d :: houseFindAllAux fuel rem
    | none => houseFindAllAux fuel rest

/-- `HOUSE_OVERSIGHT_PATTERN.findall(value)`; every successful match
consumes at least one character, so fuel `length` suffices. -/
def houseFindAll (s : String) : List String :=
  houseFindAllAux s.length s.data

def digitRunsAux : Nat → List Char → List String
  | 0, _ => []
  | _ + 1, [] => []
  | fuel + 1, c :: rest =>
    if c.isDigit then
      let run := (c :: rest).takeWhile Char.isDigit
      if run.length ≥ 4 then String.mk run :: digitRunsAux fuel ((c :: rest).dropWhile Char.isDigit)
      else digitRunsAux fuel ((c :: rest).dropWhile Char.isDigit)
    else digitRunsAux fuel rest

/-- `re.findall(r"\d{4,}", value)`: the maximal digit runs of length at
least 4, left to right (skipping a too-short maximal run whole is
equivalent to re-trying inside it, every suffix of it is shorter). -/
def digitRuns (s : String) : List String :=
  digitRunsAux s.length s.data

/-- Lines 164-168: `extract_house_ids` — the dedicated pattern's captures
when it matches anywhere, otherwise every run of 4 or more digits. -/
def extract_house_ids (value : String) : List String :=
  let ms := houseFindAll value
  if ms.isEmpty then digitRuns value else ms

/-- Lines 211-216: order-preserving first-seen deduplication with a `seen`
set (modelled as the list of already-seen values). -/
def dedupFirstSeen (seen : List String) : List String → List String
  | [] => []
  | x :: xs =>
    if x ∈ seen then dedupFirstSeen seen xs
    else x :: dedupFirstSeen (x :: seen) xs

/-- Line 186: `letter.get("id") or f"L{i:04d}"` (`or` also replaces an
empty string, which is falsy). -/
def letterId (letter : Letter) (i : Nat) : String :=
  match letter.id with
  | some s => if s == "" then "L" ++ fmt04 i else s
  | none => "L" ++ fmt04 i

/-- Line 187: `f"{collection_prefix} {lid}".strip()` when a collection
name is available, else just the letter id. -/
def folderName (collectionPref lid : String) : String :=
  if collectionPref == "" then lid else pyStrip (collectionPref ++ " " ++ lid)

/-- The items resolved from a letter's page references, in reference
order, with unresolvable references dropped (lines 195-200). -/
def resolvedItems (itemsByFilename itemsByPref : List (String × Item)) (letter : Letter) :
    List Item :=
  letter.pages.filterMap (resolveRef itemsByFilename itemsByPref)

/-- The `source_files` list (lines 202-204): the truthy `source_path` of
each resolved item, in page order. -/
def resolvedSourceFiles (itemsByFilename itemsByPref : List (String × Item)) (letter : Letter) :
    List String :=
  (resolvedItems itemsByFilename itemsByPref letter).filterMap fun it =>
    match it.source_path with
    | some sp => if sp == "" then none else some sp
    | none => none

/-- The raw `ids` list (line 205): `extract_house_ids` of the basename of
each source file, concatenated in page order. -/
def letterRawIds (itemsByFilename itemsByPref : List (String × Item)) (letter : Letter) :
    List String :=
  (resolvedSourceFiles itemsByFilename itemsByPref letter).flatMap fun sp =>
    extract_house_ids (basename sp)

/-- The on-disk result of assembling one letter: the folder name, the
contents of `meta.json` (the copied letter fields plus the two optional
keys, `none` meaning the key is omitted), and the contents of the two
text files `de.txt` and `text.txt`. -/
structure LetterOut where
  folder_name : String
  meta_letter : Letter
  meta_source_files : Option (List String)
  meta_house_oversight_ids : Option (List String)
  de_txt : String
  text_txt : String
deriving Repr, DecidableEq

/-- Lines 185-226: assembly of one letter (loop body of
`assemble_letters`); `i` is the 1-based enumeration index. -/
def assembleOne (itemsByFilename itemsByPref : List (String × Item)) (collectionPref : String)
    (i : Nat) (letter : Letter) : LetterOut :=
  let lid := letterId letter i
  let texts := (resolvedItems itemsByFilename itemsByPref letter).map (·.text)
  let sourceFiles := resolvedSourceFiles itemsByFilename itemsByPref letter
  let ids := letterRawIds itemsByFilename itemsByPref letter
  { folder_name := folderName collectionPref lid
    meta_letter := letter
    meta_source_files := if sourceFiles.isEmpty then none else some sourceFiles
    meta_house_oversight_ids := if ids.isEmpty then none else some (dedupFirstSeen [] ids)
    de_txt := String.join texts
    text_txt := String.join texts }

def assembleAux (itemsByFilename itemsByPref : List (String × Item)) (collectionPref : String) :
    Nat → List Letter → List LetterOut
  | _, [] => []
  | i, l :: ls =>
    assembleOne itemsByFilename itemsByPref collectionPref i l ::
      assembleAux itemsByFilename itemsByPref collectionPref (i + 1) ls

/-- Lines 171-226: `assemble_letters` — build the prefix index, then
assemble every proposed letter (enumerated from 1).  The grouping's
`unassigned_pages` list is part of the input but never consulted. -/
def assemble_letters (groups : Groups) (itemsByFilename : List (String × Item))
    (collectionPref : String) : List LetterOut :=
  assembleAux itemsByFilename (buildPrefixIndex itemsByFilename) collectionPref 1 groups.letters

/-! ## Model of `PIPELINE/generate_summary.py` -/

/-- One JSON file encountered by the corpus walk: its filename and the
result of `json.load` — `none` when parsing (or reading) raised, which the
source catches, logs and skips (lines 113-115, 171-172). -/
structure JFile where
  name : String
  content : Option Json
deriving Repr, DecidableEq

/-- Python `set.add`: insert a value unless already present.  The set is
modelled as the duplicate-free list of its elements. -/
def setAdd (s : List Json) (v : Json) : List Json :=
  if v ∈ s then s else s ++ [v]

/-- CPython `set.update(xs)`: elements are added one at a time, so an
unhashable element raises `TypeError` with the elements before it already
added; the `Except.error` payload is the set as mutated so far. -/
def setUpdateE : List Json → List Json → Except (List Json) (List Json)
  | s, [] => Except.ok s
  | s, x :: xs => if x.hashable then setUpdateE (setAdd s x) xs else Except.error s

/-- Python `key in container` for the values the aggregator meets: key
membership for a dict, substring test for a string, element membership
for a list; `in` on a non-iterable (`None`, a bool or a number) raises
`TypeError` (`Except.error`). -/
def pyContains (container : Json) (key : String) : Except Unit Bool :=
  match container with
  | .obj fields => Except.ok (fields.any (fun kv => kv.fst == key))
  | .str s => Except.ok (containsSub s key)
  | .arr xs => Except.ok (xs.contains (Json.str key))
  | _ => Except.error ()

/-- Python `container[key]` with a string key: field lookup on a dict;
subscripting a string, a list or a scalar with a string raises
`TypeError` (a dict `KeyError` is also `Except.error`; the aggregator
only subscripts after a successful containment test, so it cannot occur
there). -/
def pySubscript (container : Json) (key : String) : Except Unit Json :=
  match container with
  | .obj fields =>
    match (fields.find? (fun kv => kv.fst == key)).map (·.snd) with
    | some v => Except.ok v
    | none => Except.error ()
  | _ => Except.error ()

/-- Lines 125-142, one entity kind:
`if key in structured and structured[key]:` then
`if isinstance(structured[key], list): set.update(structured[key])`,
with CPython error semantics: a `TypeError` in the containment test, in
the subscript (e.g. a string `structured` that happens to contain the key
as a substring), or in the update aborts with the set as mutated so
far. -/
def updateSetFieldE (s : List Json) (structured : Json) (key : String) :
    Except (List Json) (List Json) :=
  match pyContains structured key with
  | Except.error _ => Except.error s
  | Except.ok false => Except.ok s
  | Except.ok true =>
    match pySubscript structured key with
    | Except.error _ => Except.error s
    | Except.ok v =>
      if v.truthy then
        match v with
        | .arr xs => setUpdateE s xs
        | _ => Except.ok s
      else Except.ok s

/-- Lines 144-147: `if "date" in metadata and metadata["date"]:` then
`dates.add(str(metadata["date"]))` — the containment test and subscript
carry the same `TypeError` hazards on a non-dict `document_metadata`
value; the stringified date itself is always hashable, so the `add`
cannot raise. -/
def addMetadataDateE (dates : List Json) (metadata : Json) :
    Except (List Json) (List Json) :=
  match pyContains metadata "date" with
  | Except.error _ => Except.error dates
  | Except.ok false => Except.ok dates
  | Except.ok true =>
    match pySubscript metadata "date" with
    | Except.error _ => Except.error dates
    | Except.ok v =>
      if v.truthy then Except.ok (setAdd dates (Json.str (pyStr v))) else Except.ok dates

/-- Python `defaultdict(int)` increment `d[k] += 1` on an
insertion-ordered counter (keys are JSON values, as in
`aggregated["document_types"][data["document_type"]] += 1`). -/
def bump : List (Json × Nat) → Json → List (Json × Nat)
  | [], k => [(k, 1)]
  | (a, n) :: rest, k =>
    if a = k then (a, n + 1) :: rest else (a, n) :: bump rest k

def countsSum (l : List (Json × Nat)) : Nat :=
  (l.map (·.snd)).sum

/-- The accumulator dict of `aggregate_all_json_files` (lines 92-101).
Before `finalize`, the four entity fields are sets (duplicate-free
lists); `finalize` replaces them by their sorted versions in place, as
lines 175-178 do. -/
structure Aggregated where
  named_individuals : List Json
  organizations : List Json
  locations : List Json
  dates : List Json
  document_types : List (Json × Nat)
  total_documents : Nat
  explosive_findings : List (String × Json)
  file_samples : List (String × Json)
deriving Repr, DecidableEq

def emptyAggregated : Aggregated :=
  { named_individuals := []
    organizations := []
    locations := []
    dates := []
    document_types := []
    total_documents := 0
    explosive_findings := []
    file_samples := [] }

/-- Lines 149-154: append the `notes` field to `explosive_findings` when
present and truthy.  `data` is a dict at this point, so neither the
containment test nor the subscript can raise. -/
def newFindings (findings : List (String × Json)) (name : String) (data : Json) :
    List (String × Json) :=
  match data.get? "notes" with
  | some v => if v.truthy then findings ++ [(name, v)] else findings
  | none => findings

/-- Lines 156-162: classify the document type by the explicit field when
present, else by the filename convention, and increment its counter.
`aggregated["document_types"][data["document_type"]] += 1` hashes the
field value, so an unhashable `document_type` (a list or a dict) raises
`TypeError` before any counter changes; the fallback keys are string
literals and never raise. -/
def newTypesE (types : List (Json × Nat)) (name : String) (data : Json) :
    Except (List (Json × Nat)) (List (Json × Nat)) :=
  match data.get? "document_type" with
  | some v => if v.hashable then Except.ok (bump types v) else Except.error types
  | none =>
    Except.ok (if containsSub name "_extraction" then bump types (Json.str "text_extraction")
      else bump types (Json.str "image_analysis"))

/-- Lines 164-169: keep the first 20 documents as context samples. -/
def newSamples (samples : List (String × Json)) (name : String) (data : Json) :
    List (String × Json) :=
  if samples.length < 20 then samples ++ [(name, data)] else samples

/-- Lines 120-169: everything guarded by `isinstance(data, dict)`,
executed in source order as an abortable chain with CPython error
semantics: a `TypeError` raised at any step is caught by the per-file
handler (lines 171-172), which keeps the mutations applied before the
raise and skips the remaining steps of that file.  A successfully parsed
non-object contributes nothing here. -/
def processParsed (agg : Aggregated) (name : String) (data : Json) : Aggregated :=
  match data with
  | .obj _ =>
    let structured := (data.get? "structured_data").getD (Json.obj [])
    let metadata := (data.get? "document_metadata").getD (Json.obj [])
    match updateSetFieldE agg.named_individuals structured "people" with
    | Except.error s => { agg with named_individuals := s }
    | Except.ok s1 =>
      let agg1 := { agg with named_individuals := s1 }
      match updateSetFieldE agg1.organizations structured "organizations" with
      | Except.error s => { agg1 with organizations := s }
      | Except.ok s2 =>
        let agg2 := { agg1 with organizations := s2 }
        match updateSetFieldE agg2.locations structured "locations" with
        | Except.error s => { agg2 with locations := s }
        | Except.ok s3 =>
          let agg3 := { agg2 with locations := s3 }
          match updateSetFieldE agg3.dates structured "dates" with
          | Except.error s => { agg3 with dates := s }
          | Except.ok s4 =>
            let agg4 := { agg3 with dates := s4 }
            match addMetadataDateE agg4.dates metadata with
            | Except.error s => { agg4 with dates := s }
            | Except.ok s5 =>
              let agg5 := { agg4 with dates := s5 }
              let agg6 :=
                { agg5 with
                  explosive_findings := newFindings agg5.explosive_findings name data }
              match newTypesE agg6.document_types name data with
              | Except.error t => { agg6 with document_types := t }
              | Except.ok t =>
                let agg7 := { agg6 with document_types := t }
                { agg7 with file_samples := newSamples agg7.file_samples name data }
  | _ => agg

def isOkE {ε α : Type} : Except ε α → Bool
  | Except.ok _ => true
  | Except.error _ => false

/-- The condition under which the entity update of `key` (lines 125-142)
raises a `TypeError`: the containment test on a non-iterable, the
subscript on a string or list container, or an unhashable element in the
update. -/
def entityRaises (structured : Json) (key : String) : Bool :=
  match pyContains structured key with
  | Except.error _ => true
  | Except.ok false => false
  | Except.ok true =>
    match pySubscript structured key with
    | Except.error _ => true
    | Except.ok v =>
      if v.truthy then
        match v with
        | .arr xs => !xs.all Json.hashable
        | _ => false
      else false

/-- The condition under which the metadata-date step (lines 144-147)
raises a `TypeError`. -/
def dateRaises (metadata : Json) : Bool :=
  match pyContains metadata "date" with
  | Except.error _ => true
  | Except.ok false => false
  | Except.ok true =>
    match pySubscript metadata "date" with
    | Except.error _ => true
    | Except.ok _ => false

/-- Whether the per-file processing of a parsed document reaches and
completes the document-type increment of lines 156-162: the document is
an object, none of the four entity updates nor the metadata-date step
raises, and the `document_type` value, when the field is present, is
hashable. -/
def typeBumpHappens (_name : String) (data : Json) : Bool :=
  match data with
  | .obj _ =>
    let structured := (data.get? "structured_data").getD (Json.obj [])
    let metadata := (data.get? "document_metadata").getD (Json.obj [])
    !entityRaises structured "people" && !entityRaises structured "organizations" &&
      !entityRaises structured "locations" && !entityRaises structured "dates" &&
      !dateRaises metadata &&
      (match data.get? "document_type" with
       | some v => v.hashable
       | none => true)
  | _ => false

/-- Lines 112-172, one iteration: a file that failed to parse is skipped
whole; a parsed file first increments `total_documents`, then is
processed when it is an object. -/
def aggStep (agg : Aggregated) (f : JFile) : Aggregated :=
  match f.content with
  | none => agg
  | some data => processParsed { agg with total_documents := agg.total_documents + 1 } f.name data

/-- Comparison used to model Python `sorted` on the entity sets.  The
pipeline sorts homogeneous sets of strings, on which this is exactly
Python's lexicographic string order; on mixed scalar types (where Python's
`sorted` would raise `TypeError`) it falls back to comparing the `pyStr`
renderings so that the relation stays total. -/
def jsonR (a b : Json) : Prop :=
  pyStr a ≤ pyStr b

instance : DecidableRel jsonR := fun a b => inferInstanceAs (Decidable (pyStr a ≤ pyStr b))

instance : IsTotal Json jsonR := ⟨fun a b => le_total (pyStr a) (pyStr b)⟩

instance : IsTrans Json jsonR := ⟨fun _ _ _ h1 h2 => le_trans h1 h2⟩

/-- Python `sorted(list(s))` for an entity set. -/
def pySorted (l : List Json) : List Json :=
  List.insertionSort jsonR l

/-- Lines 174-178: convert the four entity sets to sorted lists, in
place, at the end of the run. -/
def finalize (a : Aggregated) : Aggregated :=
  { a with
    named_individuals := pySorted a.named_individuals
    organizations := pySorted a.organizations
    locations := pySorted a.locations
    dates := pySorted a.dates }

/-- Lines 84-180: `aggregate_all_json_files`, with the directory walk
abstracted to the list of JSON files it yields (in walk order) together
with each file's parse result. -/
def aggregate_all_json_files (files : List JFile) : Aggregated :=
  finalize (files.foldl aggStep emptyAggregated)

/-- Bounded-depth JSON serializer standing in for `json.dumps`; string
escaping and the `indent=2` layout are abbreviated, no theorem inspects
the serialized text. -/
def Json.dumpN : Nat → Json → String
  | 0, _ => ""
  | fuel + 1, j =>
    match j with
    | .null => "null"
    | .bool true => "true"
    | .bool false => "false"
    | .num n => toString n
    | .str s => "\"" ++ s ++ "\""
    | .arr xs => "[" ++ String.intercalate ", " (xs.map (Json.dumpN fuel)) ++ "]"
    | .obj fs =>
      "\x7b" ++
        String.intercalate ", "
          (fs.map (fun kv => "\"" ++ kv.fst ++ "\": " ++ Json.dumpN fuel kv.snd)) ++
        "\x7d"

mutual

def Json.depth : Json → Nat
  | .arr xs => Json.depthList xs + 1
  | .obj fs => Json.depthFields fs + 1
  | _ => 1

def Json.depthList : List Json → Nat
  | [] => 0
  | x :: xs => max (Json.depth x) (Json.depthList xs)

def Json.depthFields : List (String × Json) → Nat
  | [] => 0
  | (_, v) :: fs => max (Json.depth v) (Json.depthFields fs)

end

def Json.dump (j : Json) : String :=
  Json.dumpN (Json.depth j) j

def dumpJList (l : List Json) : String :=
  Json.dump (Json.arr l)

/-- Lines 26-55: the strategic-summary instruction text (verbatim prose,
used only as an opaque prompt component). -/
def PROMPT_STRATEGIC_SUMMARY : String :=
  "You are analyzing House Oversight Committee documents related to high-profile investigations. You have been given aggregated data from ALL processed documents.\n\nCreate a STRATEGIC, HIGH-LEVEL summary that journalists and investigators can use."

/-- Lines 190-211: the f-string assembling the aggregated-data prompt. -/
def buildSummaryPrompt (agg : Aggregated) : String :=
  PROMPT_STRATEGIC_SUMMARY ++ "\n\nAGGREGATED DATA FROM ALL PROCESSED DOCUMENTS:\n\n" ++
  "Total Documents Analyzed: " ++ toString agg.total_documents ++ "\n\n" ++
  "Named Individuals Found: " ++ toString agg.named_individuals.length ++ "\n" ++
  (if agg.named_individuals.isEmpty then "[]" else dumpJList (agg.named_individuals.take 50)) ++
  "\n\nOrganizations Found: " ++ toString agg.organizations.length ++ "\n" ++
  (if agg.organizations.isEmpty then "[]" else dumpJList (agg.organizations.take 30)) ++
  "\n\nLocations Identified: " ++ toString agg.locations.length ++ "\n" ++
  (if agg.locations.isEmpty then "[]" else dumpJList (agg.locations.take 30)) ++
  "\n\nDocument Types:\n" ++
  Json.dump (Json.obj (agg.document_types.map (fun kv => (pyStr kv.fst, Json.num (kv.snd : Int))))) ++
  "\n\nSample Document Data (for context):\n" ++
  Json.dump (Json.arr ((agg.file_samples.take 10).map
    (fun s => Json.obj [("file", Json.str s.fst), ("data", s.snd)]))) ++
  "\n\nNow create the strategic summary as specified above. Focus on newsworthiness, named individuals, and explosive findings."

/-- Lines 238-245: the deterministic fallback report substituted when the
collaborator call raises. -/
def fallbackReport (agg : Aggregated) : String :=
  "### Processing Status\n\n- Total documents analyzed: " ++ toString agg.total_documents ++
  "\n- Named individuals identified: " ++ toString agg.named_individuals.length ++
  "\n- Organizations found: " ++ toString agg.organizations.length ++
  "\n- Document types: " ++
  String.intercalate ", " (agg.document_types.map (fun kv => pyStr kv.fst)) ++
  "\n\n(Strategic analysis temporarily unavailable - processing continues)"

/-- Lines 183-245: `generate_strategic_summary`.  The external
collaborator (client construction, request, `.text`) is the function
parameter `collab`; `Except.error` stands for any exception in the call,
which the source converts into the fallback report. -/
def generate_strategic_summary (agg : Aggregated) (collab : String → Except String String) :
    String :=
  if agg.total_documents = 0 then
    "No documents have been processed yet. Summary will appear as processing begins."
  else
    match collab (buildSummaryPrompt agg) with
    | Except.ok resp =>
      let s := pyStrip resp
      if s.startsWith "```markdown" then pyStrip ((s.replace "```markdown" "").replace "```" "")
      else if s.startsWith "```" then pyStrip (s.replace "```" "")
      else s
    | Except.error _ => fallbackReport agg

/-! ## Credential gates of the two entry points -/

/-- Lookup in the process environment (after `load_dotenv`). -/
def envGet (env : List (String × String)) (k : String) : Option String :=
  (env.find? (fun kv => kv.fst == k)).map (·.snd)

/-- Lines 229-252 of `llm_group_letters.py`: `main` up to the credential
gate — `os.environ.get("GEMINI_API_KEY")` is checked for truthiness and a
missing or empty key is `sys.exit(1)`.  Everything after the gate (lines
254-342: directory creation, OCR, listing, the grouping call and
assembly) is abstracted as `runRest`. -/
def lgl_main (env : List (String × String)) (runRest : String → Except Nat Unit) :
    Except Nat Unit :=
  match envGet env "GEMINI_API_KEY" with
  | none => Except.error 1
  | some k => if k == "" then Except.error 1 else runRest k

/-- Lines 58-81 of `generate_summary.py`: `load_api_key` strips the key
and calls `sys.exit(1)` when it is empty; the raised `SystemExit` is
modelled as `none`. -/
def load_api_key (env : List (String × String)) : Option String :=
  let k := pyStrip ((envGet env "GEMINI_API_KEY").getD "")
  if k == "" then none else some k

/-- Lines 248-267 of `generate_summary.py`:
`update_readme_with_summary` — the README existence check, then
`load_api_key` wrapped in `try ... except SystemExit: return False`.
Aggregation, summarization and the README write (lines 262-312) are
abstracted as `rest`. -/
def update_readme_with_summary (readmeExists : Bool) (env : List (String × String))
    (rest : String → Bool) : Bool :=
  if !readmeExists then false
  else
    match load_api_key env with
    | none => false
    | some k => rest k

/-- Lines 315-322 plus process semantics: `main` ignores the Bool
returned by `update_readme_with_summary` and returns `None`, so the
interpreter exits with status 0 on every path through `main`. -/
def gs_exit_code (readmeExists : Bool) (env : List (String × String))
    (rest : String → Bool) : Nat :=
  let _ := update_readme_with_summary readmeExists env rest
  0

/-! ## Helper lemmas about the assembler -/

/-- Exact ordered concatenation of page texts, with zero injected
characters: the reference formulation the fidelity contract is stated
against. -/
def concatTexts : List Item → String
  | [] => ""
  | it :: rest => it.text ++ concatTexts rest

theorem foldl_append_concatTexts (l : List Item) :
    ∀ s : String, (l.map (·.text)).foldl (· ++ ·) s = s ++ concatTexts l := by
  induction l with
  | nil => intro s; exact (String.append_empty s).symm
  | cons it rest ih =>
    intro s
    simp only [List.map_cons, List.foldl_cons, concatTexts]
    rw [ih, String.append_assoc]

theorem join_map_text (l : List Item) : String.join (l.map (·.text)) = concatTexts l := by
  show (l.map (·.text)).foldl (· ++ ·) "" = concatTexts l
  rw [foldl_append_concatTexts, String.empty_append]

theorem assembleOne_de_txt (f p : List (String × Item)) (c : String) (i : Nat) (l : Letter) :
    (assembleOne f p c i l).de_txt = String.join ((resolvedItems f p l).map (·.text)) := rfl

theorem assembleOne_text_txt (f p : List (String × Item)) (c : String) (i : Nat) (l : Letter) :
    (assembleOne f p c i l).text_txt = String.join ((resolvedItems f p l).map (·.text)) := rfl

theorem assembleOne_meta_letter (f p : List (String × Item)) (c : String) (i : Nat) (l : Letter) :
    (assembleOne f p c i l).meta_letter = l := rfl

theorem assembleOne_meta_source_files (f p : List (String × Item)) (c : String) (i : Nat)
    (l : Letter) :
    (assembleOne f p c i l).meta_source_files
      = if (resolvedSourceFiles f p l).isEmpty then none else some (resolvedSourceFiles f p l) :=
  rfl

theorem assembleOne_meta_ids (f p : List (String × Item)) (c : String) (i : Nat) (l : Letter) :
    (assembleOne f p c i l).meta_house_oversight_ids
      = if (letterRawIds f p l).isEmpty then none
        else some (dedupFirstSeen [] (letterRawIds f p l)) :=
  rfl

theorem mem_assembleAux {f p : List (String × Item)} {c : String} :
    ∀ {ls : List Letter} {i : Nat} {lo : LetterOut},
      lo ∈ assembleAux f p c i ls → ∃ j letter, letter ∈ ls ∧ lo = assembleOne f p c j letter := by
  intro ls
  induction ls with
  | nil => intro i lo h; simp [assembleAux] at h
  | cons l rest ih =>
    intro i lo h
    simp only [assembleAux, List.mem_cons] at h
    rcases h with h | h
    · exact ⟨i, l, List.mem_cons_self l rest, h⟩
    · obtain ⟨j, letter, hmem, heq⟩ := ih h
      exact ⟨j, letter, List.mem_cons_of_mem l hmem, heq⟩

theorem assembleAux_length (f p : List (String × Item)) (c : String) :
    ∀ (ls : List Letter) (i : Nat), (assembleAux f p c i ls).length = ls.length := by
  intro ls
  induction ls with
  | nil => intro i; rfl
  | cons l rest ih => intro i; simp [assembleAux, ih]

theorem assemble_letters_length (groups : Groups) (items : List (String × Item)) (cp : String) :
    (assemble_letters groups items cp).length = groups.letters.length :=
  assembleAux_length items (buildPrefixIndex items) cp groups.letters 1

/-! ## Helper lemmas about the indexes -/

theorem dictGet_nil (k' : String) : dictGet [] k' = none := rfl

theorem dictGet_cons (a : String) (b : Item) (rest : List (String × Item)) (k' : String) :
    dictGet ((a, b) :: rest) k' = if a = k' then some b else dictGet rest k' := by
  by_cases h : a = k'
  · rw [if_pos h]
    show ((List.find? (fun kv => kv.fst == k') ((a, b) :: rest))).map (·.snd) = some b
    rw [List.find?_cons_of_pos _ (by simp [h])]
    rfl
  · rw [if_neg h]
    show ((List.find? (fun kv => kv.fst == k') ((a, b) :: rest))).map (·.snd) = dictGet rest k'
    rw [List.find?_cons_of_neg _ (by simp [h])]
    rfl

theorem dictGet_dictInsert (d : List (String × Item)) (k : String) (v : Item) (k' : String) :
    dictGet (dictInsert d k v) k' = if k' = k then some v else dictGet d k' := by
  induction d with
  | nil =>
    show dictGet [(k, v)] k' = _
    rw [dictGet_cons, dictGet_nil]
    by_cases h : k' = k
    · rw [if_pos h.symm, if_pos h]
    · rw [if_neg (fun hh => h hh.symm), if_neg h]
  | cons kv rest ih =>
    obtain ⟨a, b⟩ := kv
    rw [dictInsert]
    by_cases hak : a = k
    · rw [if_pos (by simp [hak])]
      subst hak
      rw [dictGet_cons, dictGet_cons]
      by_cases h : a = k'
      · rw [if_pos h, if_pos h.symm]
      · rw [if_neg h, if_neg (fun hh => h hh.symm), if_neg h]
    · rw [if_neg (by simp [hak])]
      rw [dictGet_cons, dictGet_cons]
      by_cases hk'a : a = k'
      · have hne : ¬k' = k := fun hh => hak (hk'a.trans hh)
        rw [if_pos hk'a, if_pos hk'a, if_neg hne]
      · rw [if_neg hk'a, if_neg hk'a, ih]

theorem option_or_map {α β : Type} (f : α → β) (o1 o2 : Option α) :
    (Option.or o1 o2).map f = Option.or (o1.map f) (o2.map f) := by
  cases o1 <;> rfl

theorem option_some_or {α : Type} (a : α) (o : Option α) :
    Option.or (some a) o = some a := rfl

theorem getLast?_cons_eq_or {α : Type} (a : α) (l : List α) :
    (a :: l).getLast? = Option.or l.getLast? (some a) := by
  cases l with
  | nil => rfl
  | cons b l' =>
    rw [List.getLast?_cons_cons]
    obtain ⟨x, hx⟩ := Option.isSome_iff_exists.mp (List.getLast?_isSome.mpr (List.cons_ne_nil b l'))
    rw [hx]
    rfl

theorem dictGet_foldl_prefixInsert (items : List (String × Item)) :
    ∀ (d : List (String × Item)) (p : String),
      dictGet (items.foldl (fun acc kv => dictInsert acc (prefixOf kv.fst) kv.snd) d) p
        = Option.or (((items.filter (fun kv => prefixOf kv.fst == p)).getLast?).map Prod.snd)
            (dictGet d p) := by
  induction items with
  | nil => intro d p; simp
  | cons kv rest ih =>
    intro d p
    rw [List.foldl_cons, ih, dictGet_dictInsert, List.filter_cons]
    by_cases hp : prefixOf kv.fst = p
    · subst hp
      rw [if_pos rfl, if_pos (by simp), getLast?_cons_eq_or, option_or_map, Option.or_assoc]
      rfl
    · have hb : (prefixOf kv.fst == p) = false := by
        simp only [beq_eq_false_iff_ne, ne_eq]
        exact hp
      simp only [hb, Bool.false_eq_true, if_false]
      rw [if_neg (fun h => hp h.symm)]

/-- The secondary index maps a prefix to the value of the last entry of
`items_by_filename` (in insertion order) whose key has that prefix. -/
theorem dictGet_buildPrefixIndex (items : List (String × Item)) (p : String) :
    dictGet (buildPrefixIndex items) p
      = ((items.filter (fun kv => prefixOf kv.fst == p)).getLast?).map Prod.snd := by
  rw [buildPrefixIndex, dictGet_foldl_prefixInsert]
  simp [dictGet, List.find?]

/-! ## Helper lemmas about deduplication -/

theorem mem_dedupFirstSeen_not_seen :
    ∀ (l seen : List String) (x : String), x ∈ dedupFirstSeen seen l → x ∉ seen := by
  intro l
  induction l with
  | nil => intro seen x h; simp [dedupFirstSeen] at h
  | cons y ys ih =>
    intro seen x h
    by_cases hy : y ∈ seen
    · rw [dedupFirstSeen, if_pos hy] at h
      exact ih seen x h
    · rw [dedupFirstSeen, if_neg hy] at h
      rcases List.mem_cons.mp h with rfl | h
      · exact hy
      · intro hx
        exact ih (y :: seen) x h (List.mem_cons_of_mem y hx)

theorem dedupFirstSeen_nodup : ∀ (l seen : List String), (dedupFirstSeen seen l).Nodup := by
  intro l
  induction l with
  | nil => intro seen; simp [dedupFirstSeen]
  | cons y ys ih =>
    intro seen
    by_cases hy : y ∈ seen
    · rw [dedupFirstSeen, if_pos hy]; exact ih seen
    · rw [dedupFirstSeen, if_neg hy]
      refine List.nodup_cons.mpr ⟨fun hmem => ?_, ih (y :: seen)⟩
      exact mem_dedupFirstSeen_not_seen ys (y :: seen) y hmem (List.mem_cons_self y seen)

/-! ## Witness fixtures: a two-page corpus in the shape the pipeline
produces (spec §8 scenario). -/

def wItA : Item := ⟨"Dear Hans,", some "german_output/ABC123_page2_german.txt"⟩

def wItB : Item := ⟨"Yours, Karl", some "german_output/house_oversight_012345_german.txt"⟩

def wItems : List (String × Item) := [("ABC123_page2", wItA), ("house_oversight_012345", wItB)]

def wLetter : Letter := ⟨some "L0001", ["ABC123_page2", "house_oversight_012345"], none, none⟩

def wGroups : Groups := ⟨[wLetter], []⟩

/-! ## Claim theorems for the letter assembler -/

/-- C1: for every reconciled group, the assembled Letter's concatenated
text equals the exact ordered concatenation of the texts of its resolved
Pages, in reference order, with zero injected characters, and the same
string is written to both `de.txt` and `text.txt`. -/
theorem letter_text_is_exact_concatenation
    (groups : Groups) (items : List (String × Item)) (cp : String) (lo : LetterOut)
    (hmem : lo ∈ assemble_letters groups items cp) :
    lo.de_txt = concatTexts (resolvedItems items (buildPrefixIndex items) lo.meta_letter) ∧
    lo.text_txt = lo.de_txt := by
  obtain ⟨j, letter, _, rfl⟩ := mem_assembleAux hmem
  rw [assembleOne_de_txt, assembleOne_text_txt, assembleOne_meta_letter, join_map_text]
  exact ⟨rfl, rfl⟩

theorem letter_text_is_exact_concatenation_witness :
    assembleOne wItems (buildPrefixIndex wItems) "DorleLettersE" 1 wLetter
        ∈ assemble_letters wGroups wItems "DorleLettersE" ∧
    ((assembleOne wItems (buildPrefixIndex wItems) "DorleLettersE" 1 wLetter).de_txt
        = concatTexts (resolvedItems wItems (buildPrefixIndex wItems)
            (assembleOne wItems (buildPrefixIndex wItems) "DorleLettersE" 1 wLetter).meta_letter) ∧
      (assembleOne wItems (buildPrefixIndex wItems) "DorleLettersE" 1 wLetter).text_txt
        = (assembleOne wItems (buildPrefixIndex wItems) "DorleLettersE" 1 wLetter).de_txt) :=
  ⟨by decide,
    letter_text_is_exact_concatenation wGroups wItems "DorleLettersE" _ (by decide)⟩

/-- C2: reference resolution tries the exact full-key index first; on a
miss it looks up the prefix of the reference (the substring before its
first underscore) in the secondary index, which maps each prefix to the
last Page seen in iteration order (last-write-wins); in particular a
reference missing its suffix resolves whenever exactly one stored key
carries its prefix. -/
theorem resolution_exact_then_prefix_fallback (items : List (String × Item)) (fn : String) :
    (∀ it, dictGet items fn = some it →
        resolveRef items (buildPrefixIndex items) fn = some it) ∧
    (dictGet items fn = none →
        resolveRef items (buildPrefixIndex items) fn
          = dictGet (buildPrefixIndex items) (prefixOf fn)) ∧
    (∀ p, dictGet (buildPrefixIndex items) p
        = ((items.filter (fun kv => prefixOf kv.fst == p)).getLast?).map Prod.snd) ∧
    (∀ k it, dictGet items fn = none →
        items.filter (fun kv => prefixOf kv.fst == prefixOf fn) = [(k, it)] →
        resolveRef items (buildPrefixIndex items) fn = some it) := by
  refine ⟨fun it h => ?_, fun h => ?_, fun p => dictGet_buildPrefixIndex items p,
    fun k it h hfilter => ?_⟩
  · rw [resolveRef, h]
  · rw [resolveRef, h]
  · rw [resolveRef, h, dictGet_buildPrefixIndex, hfilter]
    rfl

theorem resolution_exact_then_prefix_fallback_witness :
    dictGet wItems "ABC123" = none ∧
    wItems.filter (fun kv => prefixOf kv.fst == prefixOf "ABC123") = [("ABC123_page2", wItA)] ∧
    resolveRef wItems (buildPrefixIndex wItems) "ABC123" = some wItA :=
  ⟨by decide, by decide,
    (resolution_exact_then_prefix_fallback wItems "ABC123").2.2.2 "ABC123_page2" wItA
      (by decide) (by decide)⟩

/-- C3: a page reference that resolves neither exactly nor by prefix
fallback is dropped silently — it contributes no text, no source file and
no reference ID, the grouping's unassigned list is never touched (the
output is independent of it), and the letter is still produced from the
remaining references. -/
theorem unresolvable_reference_dropped_silently
    (items : List (String × Item)) (cp r : String) (i : Nat) (oid : Option String)
    (p1 p2 : List String) (conf reas : Option Json)
    (hnone : resolveRef items (buildPrefixIndex items) r = none) :
    ((assembleOne items (buildPrefixIndex items) cp i ⟨oid, p1 ++ r :: p2, conf, reas⟩).de_txt
        = (assembleOne items (buildPrefixIndex items) cp i ⟨oid, p1 ++ p2, conf, reas⟩).de_txt ∧
      (assembleOne items (buildPrefixIndex items) cp i ⟨oid, p1 ++ r :: p2, conf, reas⟩).text_txt
        = (assembleOne items (buildPrefixIndex items) cp i ⟨oid, p1 ++ p2, conf, reas⟩).text_txt ∧
      (assembleOne items (buildPrefixIndex items) cp i
            ⟨oid, p1 ++ r :: p2, conf, reas⟩).meta_source_files
        = (assembleOne items (buildPrefixIndex items) cp i
            ⟨oid, p1 ++ p2, conf, reas⟩).meta_source_files ∧
      (assembleOne items (buildPrefixIndex items) cp i
            ⟨oid, p1 ++ r :: p2, conf, reas⟩).meta_house_oversight_ids
        = (assembleOne items (buildPrefixIndex items) cp i
            ⟨oid, p1 ++ p2, conf, reas⟩).meta_house_oversight_ids ∧
      (assembleOne items (buildPrefixIndex items) cp i
            ⟨oid, p1 ++ r :: p2, conf, reas⟩).folder_name
        = (assembleOne items (buildPrefixIndex items) cp i
            ⟨oid, p1 ++ p2, conf, reas⟩).folder_name) ∧
    (∀ ls u1 u2, assemble_letters ⟨ls, u1⟩ items cp = assemble_letters ⟨ls, u2⟩ items cp) ∧
    (∀ groups, (assemble_letters groups items cp).length = groups.letters.length) := by
  have hres : resolvedItems items (buildPrefixIndex items) ⟨oid, p1 ++ r :: p2, conf, reas⟩
      = resolvedItems items (buildPrefixIndex items) ⟨oid, p1 ++ p2, conf, reas⟩ := by
    simp [resolvedItems, List.filterMap_append, List.filterMap_cons, hnone]
  have hsrc : resolvedSourceFiles items (buildPrefixIndex items) ⟨oid, p1 ++ r :: p2, conf, reas⟩
      = resolvedSourceFiles items (buildPrefixIndex items) ⟨oid, p1 ++ p2, conf, reas⟩ := by
    rw [resolvedSourceFiles, resolvedSourceFiles, hres]
  have hids : letterRawIds items (buildPrefixIndex items) ⟨oid, p1 ++ r :: p2, conf, reas⟩
      = letterRawIds items (buildPrefixIndex items) ⟨oid, p1 ++ p2, conf, reas⟩ := by
    rw [letterRawIds, letterRawIds, hsrc]
  refine ⟨⟨?_, ?_, ?_, ?_, rfl⟩, fun ls u1 u2 => rfl,
    fun groups => assemble_letters_length groups items cp⟩
  · rw [assembleOne_de_txt, assembleOne_de_txt, hres]
  · rw [assembleOne_text_txt, assembleOne_text_txt, hres]
  · rw [assembleOne_meta_source_files, assembleOne_meta_source_files, hsrc]
  · rw [assembleOne_meta_ids, assembleOne_meta_ids, hids]

theorem unresolvable_reference_dropped_silently_witness :
    resolveRef wItems (buildPrefixIndex wItems) "XYZ" = none ∧
    (assembleOne wItems (buildPrefixIndex wItems) "DorleLettersE" 1
          ⟨some "L0001", ["ABC123_page2"] ++ "XYZ" :: [], none, none⟩).de_txt
      = (assembleOne wItems (buildPrefixIndex wItems) "DorleLettersE" 1
          ⟨some "L0001", ["ABC123_page2"] ++ [], none, none⟩).de_txt :=
  ⟨by decide,
    (unresolvable_reference_dropped_silently wItems "DorleLettersE" "XYZ" 1 (some "L0001")
        ["ABC123_page2"] [] none none (by decide)).1.1⟩

/-- C4: the stored `house_oversight_ids` list is the first-seen-order
deduplication of the IDs extracted from each resolved Page's source
filename in page order (omitted when no ID was extracted), it never
contains duplicates, and extraction uses the dedicated House Oversight
pattern first, falling back to runs of 4 or more digits only when the
dedicated pattern finds nothing. -/
theorem reference_ids_deduplicated_first_seen
    (groups : Groups) (items : List (String × Item)) (cp : String) (lo : LetterOut)
    (hmem : lo ∈ assemble_letters groups items cp) :
    (letterRawIds items (buildPrefixIndex items) lo.meta_letter = [] →
        lo.meta_house_oversight_ids = none) ∧
    (letterRawIds items (buildPrefixIndex items) lo.meta_letter ≠ [] →
        lo.meta_house_oversight_ids
          = some (dedupFirstSeen [] (letterRawIds items (buildPrefixIndex items) lo.meta_letter))) ∧
    (∀ l, lo.meta_house_oversight_ids = some l → l.Nodup) ∧
    (∀ s, houseFindAll s = [] → extract_house_ids s = digitRuns s) ∧
    (∀ s, houseFindAll s ≠ [] → extract_house_ids s = houseFindAll s) := by
  obtain ⟨j, letter, _, rfl⟩ := mem_assembleAux hmem
  rw [assembleOne_meta_ids, assembleOne_meta_letter]
  refine ⟨fun h => ?_, fun h => ?_, fun l hl => ?_, fun s hs => ?_, fun s hs => ?_⟩
  · rw [h]; rfl
  · rw [if_neg (by simpa [List.isEmpty_iff] using h)]
  · by_cases h : (letterRawIds items (buildPrefixIndex items) letter).isEmpty
    · rw [if_pos h] at hl; cases hl
    · rw [if_neg h] at hl
      cases hl
      exact dedupFirstSeen_nodup _ []
  · rw [extract_house_ids, hs]
    rfl
  · rw [extract_house_ids]
    rw [if_neg (by simpa [List.isEmpty_iff] using hs)]

theorem reference_ids_deduplicated_first_seen_witness :
    assembleOne wItems (buildPrefixIndex wItems) "DorleLettersE" 1 wLetter
        ∈ assemble_letters wGroups wItems "DorleLettersE" ∧
    letterRawIds wItems (buildPrefixIndex wItems) wLetter ≠ [] ∧
    (assembleOne wItems (buildPrefixIndex wItems) "DorleLettersE" 1
        wLetter).meta_house_oversight_ids
      = some (dedupFirstSeen [] (letterRawIds wItems (buildPrefixIndex wItems) wLetter)) :=
  ⟨by decide, by decide,
    ((reference_ids_deduplicated_first_seen wGroups wItems "DorleLettersE" _ (by decide)).2.1
      (by decide))⟩

/-- C9: every proposed group yields an output folder with `meta.json`,
`de.txt` and `text.txt` (one output per group, whatever resolves); when no
page reference resolves, both text files are empty and the metadata
record omits the `source_files` and `house_oversight_ids` keys, while the
original proposed-group fields are always passed through unchanged. -/
theorem empty_group_still_written (items : List (String × Item)) (cp : String) :
    (∀ groups, (assemble_letters groups items cp).length = groups.letters.length) ∧
    (∀ i letter, (assembleOne items (buildPrefixIndex items) cp i letter).meta_letter = letter) ∧
    (∀ i letter,
      (∀ r ∈ letter.pages, resolveRef items (buildPrefixIndex items) r = none) →
      (assembleOne items (buildPrefixIndex items) cp i letter).de_txt = "" ∧
      (assembleOne items (buildPrefixIndex items) cp i letter).text_txt = "" ∧
      (assembleOne items (buildPrefixIndex items) cp i letter).meta_source_files = none ∧
      (assembleOne items (buildPrefixIndex items) cp i letter).meta_house_oversight_ids
        = none) := by
  refine ⟨fun groups => assemble_letters_length groups items cp,
    fun i letter => assembleOne_meta_letter items (buildPrefixIndex items) cp i letter,
    fun i letter hall => ?_⟩
  have hres : resolvedItems items (buildPrefixIndex items) letter = [] :=
    List.filterMap_eq_nil_iff.mpr hall
  have hsrc : resolvedSourceFiles items (buildPrefixIndex items) letter = [] := by
    rw [resolvedSourceFiles, hres]; rfl
  have hids : letterRawIds items (buildPrefixIndex items) letter = [] := by
    rw [letterRawIds, hsrc]; rfl
  refine ⟨?_, ?_, ?_, ?_⟩
  · rw [assembleOne_de_txt, hres]; rfl
  · rw [assembleOne_text_txt, hres]; rfl
  · rw [assembleOne_meta_source_files, hsrc]; rfl
  · rw [assembleOne_meta_ids, hids]; rfl

theorem empty_group_still_written_witness :
    (∀ r ∈ (⟨some "L0002", ["XYZ", "QQQ"], none, none⟩ : Letter).pages,
        resolveRef wItems (buildPrefixIndex wItems) r = none) ∧
    (assembleOne wItems (buildPrefixIndex wItems) "DorleLettersE" 2
        ⟨some "L0002", ["XYZ", "QQQ"], none, none⟩).de_txt = "" ∧
    (assembleOne wItems (buildPrefixIndex wItems) "DorleLettersE" 2
        ⟨some "L0002", ["XYZ", "QQQ"], none, none⟩).meta_source_files = none :=
  ⟨by decide,
    ((empty_group_still_written wItems "DorleLettersE").2.2 2
        ⟨some "L0002", ["XYZ", "QQQ"], none, none⟩ (by decide)).1,
    ((empty_group_still_written wItems "DorleLettersE").2.2 2
        ⟨some "L0002", ["XYZ", "QQQ"], none, none⟩ (by decide)).2.2.1⟩

/-! ## Helper lemmas about the aggregation engine -/

/-- The four entity accumulators hold no duplicates. -/
def entitySetsNodup (a : Aggregated) : Prop :=
  a.named_individuals.Nodup ∧ a.organizations.Nodup ∧ a.locations.Nodup ∧ a.dates.Nodup

theorem setAdd_nodup (s : List Json) (v : Json) (h : s.Nodup) : (setAdd s v).Nodup := by
  rw [setAdd]
  by_cases hv : v ∈ s
  · rw [if_pos hv]; exact h
  · rw [if_neg hv, ← List.concat_eq_append]
    exact List.Nodup.concat hv h

theorem setUpdateE_nodup : ∀ (xs s : List Json), s.Nodup →
    ∀ r, (setUpdateE s xs = Except.ok r ∨ setUpdateE s xs = Except.error r) → r.Nodup := by
  intro xs
  induction xs with
  | nil =>
    intro s h r he
    rcases he with he | he <;> simp only [setUpdateE] at he
    · injection he with he'
      rw [← he']; exact h
    · simp at he
  | cons x xs ih =>
    intro s h r he
    rcases he with he | he <;> simp only [setUpdateE] at he <;> split at he
    · exact ih (setAdd s x) (setAdd_nodup s x h) r (Or.inl he)
    · simp at he
    · exact ih (setAdd s x) (setAdd_nodup s x h) r (Or.inr he)
    · injection he with he'
      rw [← he']; exact h

theorem updateSetFieldE_nodup (s : List Json) (structured : Json) (key : String) (h : s.Nodup)
    (r : List Json)
    (he : updateSetFieldE s structured key = Except.ok r ∨
      updateSetFieldE s structured key = Except.error r) : r.Nodup := by
  rcases he with he | he <;>
    · simp only [updateSetFieldE] at he
      repeat' split at he
      all_goals
        first
          | exact setUpdateE_nodup _ _ h r (Or.inl he)
          | exact setUpdateE_nodup _ _ h r (Or.inr he)
          | (injection he with he'; rw [← he']; exact h)
          | injection he

theorem addMetadataDateE_nodup (dates : List Json) (metadata : Json) (h : dates.Nodup)
    (r : List Json)
    (he : addMetadataDateE dates metadata = Except.ok r ∨
      addMetadataDateE dates metadata = Except.error r) : r.Nodup := by
  rcases he with he | he <;>
    · simp only [addMetadataDateE] at he
      repeat' split at he
      all_goals
        first
          | (injection he with he'; rw [← he']; exact setAdd_nodup _ _ h)
          | (injection he with he'; rw [← he']; exact h)
          | injection he

theorem processParsed_nodup (agg : Aggregated) (name : String) (data : Json)
    (h : entitySetsNodup agg) : entitySetsNodup (processParsed agg name data) := by
  obtain ⟨h1, h2, h3, h4⟩ := h
  cases data with
  | obj fields =>
    simp only [processParsed]
    split
    next s heq =>
      exact ⟨updateSetFieldE_nodup _ _ _ h1 s (Or.inr heq), h2, h3, h4⟩
    next s1 heq1 =>
      have hs1 : s1.Nodup := updateSetFieldE_nodup _ _ _ h1 s1 (Or.inl heq1)
      split
      next s heq =>
        exact ⟨hs1, updateSetFieldE_nodup _ _ _ h2 s (Or.inr heq), h3, h4⟩
      next s2 heq2 =>
        have hs2 : s2.Nodup := updateSetFieldE_nodup _ _ _ h2 s2 (Or.inl heq2)
        split
        next s heq =>
          exact ⟨hs1, hs2, updateSetFieldE_nodup _ _ _ h3 s (Or.inr heq), h4⟩
        next s3 heq3 =>
          have hs3 : s3.Nodup := updateSetFieldE_nodup _ _ _ h3 s3 (Or.inl heq3)
          split
          next s heq =>
            exact ⟨hs1, hs2, hs3, updateSetFieldE_nodup _ _ _ h4 s (Or.inr heq)⟩
          next s4 heq4 =>
            have hs4 : s4.Nodup := updateSetFieldE_nodup _ _ _ h4 s4 (Or.inl heq4)
            split
            next s heq =>
              exact ⟨hs1, hs2, hs3, addMetadataDateE_nodup _ _ hs4 s (Or.inr heq)⟩
            next s5 heq5 =>
              have hs5 : s5.Nodup := addMetadataDateE_nodup _ _ hs4 s5 (Or.inl heq5)
              split
              next t heq => exact ⟨hs1, hs2, hs3, hs5⟩
              next t heq => exact ⟨hs1, hs2, hs3, hs5⟩
  | null => exact ⟨h1, h2, h3, h4⟩
  | bool b => exact ⟨h1, h2, h3, h4⟩
  | num n => exact ⟨h1, h2, h3, h4⟩
  | str s => exact ⟨h1, h2, h3, h4⟩
  | arr elems => exact ⟨h1, h2, h3, h4⟩

theorem aggStep_nodup (agg : Aggregated) (f : JFile) (h : entitySetsNodup agg) :
    entitySetsNodup (aggStep agg f) := by
  cases hc : f.content with
  | none => rw [aggStep, hc]; exact h
  | some data =>
    rw [aggStep, hc]
    exact processParsed_nodup _ f.name data h

theorem foldl_aggStep_nodup : ∀ (files : List JFile) (a : Aggregated),
    entitySetsNodup a → entitySetsNodup (files.foldl aggStep a) := by
  intro files
  induction files with
  | nil => intro a h; exact h
  | cons f rest ih =>
    intro a h
    exact ih (aggStep a f) (aggStep_nodup a f h)

theorem pySorted_sorted (l : List Json) : List.Sorted jsonR (pySorted l) :=
  List.sorted_insertionSort jsonR l

theorem pySorted_nodup (l : List Json) (h : l.Nodup) : (pySorted l).Nodup :=
  ((List.perm_insertionSort jsonR l).nodup_iff).mpr h

theorem processParsed_total (agg : Aggregated) (name : String) (data : Json) :
    (processParsed agg name data).total_documents = agg.total_documents := by
  cases data with
  | obj fields =>
    simp only [processParsed]
    repeat' split
    all_goals rfl
  | null => rfl
  | bool b => rfl
  | num n => rfl
  | str s => rfl
  | arr elems => rfl

theorem bool_not_eq_false {b : Bool} (h : (!b) = false) : b = true := by
  cases b <;> simp_all

theorem bool_not_eq_true {b : Bool} (h : (!b) = true) : b = false := by
  cases b <;> simp_all

theorem setUpdateE_isOk : ∀ (xs s : List Json), isOkE (setUpdateE s xs) = xs.all Json.hashable := by
  intro xs
  induction xs with
  | nil => intro s; rfl
  | cons x xs ih =>
    intro s
    simp only [setUpdateE, List.all_cons]
    by_cases hx : x.hashable = true
    · simp [hx, ih]
    · simp [Bool.not_eq_true] at hx
      simp [hx, isOkE]

theorem updateSetFieldE_vs_raises (s : List Json) (structured : Json) (key : String) :
    isOkE (updateSetFieldE s structured key) = !entityRaises structured key := by
  rw [updateSetFieldE, entityRaises]
  cases pyContains structured key with
  | error e => rfl
  | ok b =>
    cases b with
    | false => rfl
    | true =>
      cases pySubscript structured key with
      | error e => rfl
      | ok v =>
        show isOkE (if v.truthy = true then
              (match v with
               | Json.arr xs => setUpdateE s xs
               | _ => Except.ok s)
            else Except.ok s)
          = !(if v.truthy = true then
              (match v with
               | Json.arr xs => !xs.all Json.hashable
               | _ => false)
            else false)
        cases htv : v.truthy with
        | false => rfl
        | true =>
          cases v with
          | arr xs =>
            show isOkE (setUpdateE s xs) = !(!xs.all Json.hashable)
            rw [setUpdateE_isOk, Bool.not_not]
          | null => rfl
          | bool b => rfl
          | num n => rfl
          | str str => rfl
          | obj fields => rfl

theorem addMetadataDateE_vs_raises (dates : List Json) (metadata : Json) :
    isOkE (addMetadataDateE dates metadata) = !dateRaises metadata := by
  rw [addMetadataDateE, dateRaises]
  cases pyContains metadata "date" with
  | error e => rfl
  | ok b =>
    cases b with
    | false => rfl
    | true =>
      cases pySubscript metadata "date" with
      | error e => rfl
      | ok v =>
        show isOkE (if v.truthy = true then
              Except.ok (setAdd dates (Json.str (pyStr v)))
            else Except.ok dates)
          = !false
        cases htv : v.truthy with
        | false => rfl
        | true => rfl

theorem bump_sum : ∀ (l : List (Json × Nat)) (k : Json), countsSum (bump l k) = countsSum l + 1 := by
  intro l
  induction l with
  | nil => intro k; rfl
  | cons an rest ih =>
    intro k
    obtain ⟨a, n⟩ := an
    rw [bump]
    by_cases h : a = k
    · rw [if_pos h]
      simp only [countsSum, List.map_cons, List.sum_cons]
      omega
    · rw [if_neg h]
      simp only [countsSum, List.map_cons, List.sum_cons] at ih ⊢
      rw [ih]
      omega

theorem newTypesE_error_sum (types : List (Json × Nat)) (name : String) (data : Json)
    (t : List (Json × Nat)) (h : newTypesE types name data = Except.error t) :
    countsSum t = countsSum types ∧
      (match data.get? "document_type" with
       | some v => v.hashable
       | none => true) = false := by
  simp only [newTypesE] at h
  revert h
  cases hget : data.get? "document_type" with
  | some v =>
    intro h
    cases hv : v.hashable with
    | true => simp [hv] at h
    | false =>
      simp [hv] at h
      exact ⟨by rw [← h], by simp [hv]⟩
  | none =>
    intro h
    simp at h

theorem newTypesE_ok_sum (types : List (Json × Nat)) (name : String) (data : Json)
    (t : List (Json × Nat)) (h : newTypesE types name data = Except.ok t) :
    countsSum t = countsSum types + 1 ∧
      (match data.get? "document_type" with
       | some v => v.hashable
       | none => true) = true := by
  simp only [newTypesE] at h
  revert h
  cases hget : data.get? "document_type" with
  | some v =>
    intro h
    cases hv : v.hashable with
    | true =>
      simp [hv] at h
      exact ⟨by rw [← h, bump_sum], by simp [hv]⟩
    | false => simp [hv] at h
  | none =>
    intro h
    simp only [Except.ok.injEq] at h
    refine ⟨?_, rfl⟩
    by_cases hc : containsSub name "_extraction"
    · rw [← h, if_pos hc, bump_sum]
    · rw [← h, if_neg hc, bump_sum]

/-- The document-type counter sum grows by exactly the type bump: by 1
when the per-file chain reaches and completes the increment, by 0 when a
`TypeError` aborts the file before or at the increment. -/
theorem processParsed_types_sum (agg : Aggregated) (name : String) (data : Json) :
    countsSum (processParsed agg name data).document_types
      = countsSum agg.document_types + (if typeBumpHappens name data then 1 else 0) := by
  cases data with
  | obj fields =>
    simp only [processParsed, typeBumpHappens]
    split
    next s heq =>
      have her := bool_not_eq_false
        ((updateSetFieldE_vs_raises _ _ _).symm.trans (congrArg isOkE heq))
      simp [her]
    next s1 heq1 =>
      have hok1 := bool_not_eq_true
        ((updateSetFieldE_vs_raises _ _ _).symm.trans (congrArg isOkE heq1))
      split
      next s heq =>
        have her := bool_not_eq_false
          ((updateSetFieldE_vs_raises _ _ _).symm.trans (congrArg isOkE heq))
        simp [her]
      next s2 heq2 =>
        have hok2 := bool_not_eq_true
          ((updateSetFieldE_vs_raises _ _ _).symm.trans (congrArg isOkE heq2))
        split
        next s heq =>
          have her := bool_not_eq_false
            ((updateSetFieldE_vs_raises _ _ _).symm.trans (congrArg isOkE heq))
          simp [her]
        next s3 heq3 =>
          have hok3 := bool_not_eq_true
            ((updateSetFieldE_vs_raises _ _ _).symm.trans (congrArg isOkE heq3))
          split
          next s heq =>
            have her := bool_not_eq_false
              ((updateSetFieldE_vs_raises _ _ _).symm.trans (congrArg isOkE heq))
            simp [her]
          next s4 heq4 =>
            have hok4 := bool_not_eq_true
              ((updateSetFieldE_vs_raises _ _ _).symm.trans (congrArg isOkE heq4))
            split
            next s heq =>
              have hdr := bool_not_eq_false
                ((addMetadataDateE_vs_raises _ _).symm.trans (congrArg isOkE heq))
              simp [hdr]
            next s5 heq5 =>
              have hdr := bool_not_eq_true
                ((addMetadataDateE_vs_raises _ _).symm.trans (congrArg isOkE heq5))
              split
              next t heq =>
                obtain ⟨hsum, hcond⟩ := newTypesE_error_sum _ name (Json.obj fields) t heq
                simp [hok1, hok2, hok3, hok4, hdr, hcond]
                simpa using hsum
              next t heq =>
                obtain ⟨hsum, hcond⟩ := newTypesE_ok_sum _ name (Json.obj fields) t heq
                simp [hok1, hok2, hok3, hok4, hdr, hcond]
                simpa using hsum
  | null => simp [processParsed, typeBumpHappens]
  | bool b => simp [processParsed, typeBumpHappens]
  | num n => simp [processParsed, typeBumpHappens]
  | str s => simp [processParsed, typeBumpHappens]
  | arr elems => simp [processParsed, typeBumpHappens]

/-- Whether the file's processing never completes the document-type
increment: either the parse succeeded with a non-object value, or a
`TypeError` aborted the file at or before the increment.  Files that fail
to parse do not count (they do not reach line 117 either). -/
def noBumpParsed (f : JFile) : Bool :=
  match f.content with
  | some d => !typeBumpHappens f.name d
  | none => false

theorem aggStep_none (agg : Aggregated) (name : String) :
    aggStep agg ⟨name, none⟩ = agg := rfl

theorem aggStep_nonObj (agg : Aggregated) (name : String) (data : Json)
    (h : data.isObj = false) :
    aggStep agg ⟨name, some data⟩ = { agg with total_documents := agg.total_documents + 1 } := by
  cases data with
  | obj fields => simp [Json.isObj] at h
  | null => rfl
  | bool b => rfl
  | num n => rfl
  | str s => rfl
  | arr elems => rfl

theorem foldl_total_vs_sum : ∀ (files : List JFile) (a : Aggregated),
    (files.foldl aggStep a).total_documents + countsSum a.document_types
      = a.total_documents + countsSum (files.foldl aggStep a).document_types
          + (files.filter noBumpParsed).length := by
  intro files
  induction files with
  | nil => intro a; simp
  | cons f rest ih =>
    intro a
    rw [List.foldl_cons, List.filter_cons]
    obtain ⟨name, content⟩ := f
    cases content with
    | none =>
      rw [aggStep_none]
      have : noBumpParsed ⟨name, none⟩ = false := rfl
      rw [this, if_neg (by simp)]
      exact ih a
    | some data =>
      have htot : (aggStep a ⟨name, some data⟩).total_documents = a.total_documents + 1 := by
        rw [aggStep]
        exact processParsed_total _ name data
      have hsum : countsSum (aggStep a ⟨name, some data⟩).document_types
          = countsSum a.document_types + (if typeBumpHappens name data then 1 else 0) := by
        rw [aggStep]
        exact processParsed_types_sum { a with total_documents := a.total_documents + 1 }
          name data
      have hihs := ih (aggStep a ⟨name, some data⟩)
      cases hb : typeBumpHappens name data with
      | true =>
        have hno : noBumpParsed ⟨name, some data⟩ = false := by
          simp [noBumpParsed, hb]
        rw [hno, if_neg (by simp)]
        rw [hb] at hsum
        simp only [if_true] at hsum
        omega
      | false =>
        have hno : noBumpParsed ⟨name, some data⟩ = true := by
          simp [noBumpParsed, hb]
        rw [hno, if_pos rfl, List.length_cons]
        rw [hb] at hsum
        simp only [Bool.false_eq_true, if_false] at hsum
        omega

theorem foldl_total_counts_parsed : ∀ (files : List JFile) (a : Aggregated),
    (files.foldl aggStep a).total_documents
      = a.total_documents + (files.filter (fun f => f.content.isSome)).length := by
  intro files
  induction files with
  | nil => intro a; simp
  | cons f rest ih =>
    intro a
    rw [List.foldl_cons, List.filter_cons]
    obtain ⟨name, content⟩ := f
    cases content with
    | none =>
      rw [aggStep_none, if_neg (by simp)]
      exact ih a
    | some data =>
      rw [if_pos (by simp)]
      have htot : (aggStep a ⟨name, some data⟩).total_documents = a.total_documents + 1 := by
        rw [aggStep]
        exact processParsed_total _ name data
      rw [List.length_cons, ih (aggStep a ⟨name, some data⟩), htot]
      omega

theorem finalize_total (a : Aggregated) : (finalize a).total_documents = a.total_documents := rfl

theorem finalize_types (a : Aggregated) : (finalize a).document_types = a.document_types := rfl

/-! ## Witness fixtures for the aggregation engine -/

def jdFile1 : JFile :=
  ⟨"a.json", some (Json.obj [("structured_data", Json.obj [("people",
    Json.arr [Json.str "Jane Doe"])])])⟩

def jdFile2 : JFile :=
  ⟨"b.json", some (Json.obj [("structured_data", Json.obj [("people",
    Json.arr [Json.str "Jane Doe"])])])⟩

/-! ## Claim theorems for the aggregation engine -/

/-- C5: the entity accumulators (named_individuals, organizations,
locations, dates) never contain duplicates however often source documents
repeat the same string — two documents each listing "Jane Doe" yield it
exactly once — and each set is converted to a sorted sequence only at the
end of the run (`finalize`), after which the lists are sorted and still
duplicate-free. -/
theorem aggregation_sets_deduplicated (files : List JFile) :
    entitySetsNodup (files.foldl aggStep emptyAggregated) ∧
    aggregate_all_json_files files = finalize (files.foldl aggStep emptyAggregated) ∧
    (List.Sorted jsonR (aggregate_all_json_files files).named_individuals ∧
      List.Sorted jsonR (aggregate_all_json_files files).organizations ∧
      List.Sorted jsonR (aggregate_all_json_files files).locations ∧
      List.Sorted jsonR (aggregate_all_json_files files).dates) ∧
    entitySetsNodup (aggregate_all_json_files files) ∧
    (aggregate_all_json_files [jdFile1, jdFile2]).named_individuals = [Json.str "Jane Doe"] := by
  have hnodup : entitySetsNodup (files.foldl aggStep emptyAggregated) :=
    foldl_aggStep_nodup files emptyAggregated ⟨List.nodup_nil, List.nodup_nil,
      List.nodup_nil, List.nodup_nil⟩
  obtain ⟨h1, h2, h3, h4⟩ := hnodup
  refine ⟨⟨h1, h2, h3, h4⟩, rfl,
    ⟨pySorted_sorted _, pySorted_sorted _, pySorted_sorted _, pySorted_sorted _⟩,
    ⟨pySorted_nodup _ h1, pySorted_nodup _ h2, pySorted_nodup _ h3, pySorted_nodup _ h4⟩,
    by decide⟩

/-- C6: `total_documents` equals the number of JSON files that parse
successfully (zero-entity documents included); a file whose parse fails
contributes nothing at all — removing it from the walk leaves the whole
snapshot unchanged — and aggregation is a total function, so the run
completes for every input. -/
theorem total_documents_counts_parsed (files : List JFile) :
    (aggregate_all_json_files files).total_documents
      = (files.filter (fun f => f.content.isSome)).length ∧
    (∀ pre post name,
      aggregate_all_json_files (pre ++ ⟨name, none⟩ :: post)
        = aggregate_all_json_files (pre ++ post)) := by
  constructor
  · rw [aggregate_all_json_files, finalize_total, foldl_total_counts_parsed]
    exact Nat.zero_add _
  · intro pre post name
    rw [aggregate_all_json_files, aggregate_all_json_files, List.foldl_append,
      List.foldl_append, List.foldl_cons, aggStep_none]

/-- C7: when the aggregated snapshot has `total_documents = 0`, the
summarization step returns the fixed "no documents processed" message and
never invokes the external collaborator: its result is the same for every
possible collaborator. -/
theorem summary_short_circuits_on_empty_corpus (agg : Aggregated)
    (collab collab2 : String → Except String String) (h : agg.total_documents = 0) :
    generate_strategic_summary agg collab
      = "No documents have been processed yet. Summary will appear as processing begins." ∧
    generate_strategic_summary agg collab = generate_strategic_summary agg collab2 := by
  rw [generate_strategic_summary, generate_strategic_summary, if_pos h, if_pos h]
  exact ⟨rfl, rfl⟩

theorem summary_short_circuits_on_empty_corpus_witness :
    (aggregate_all_json_files []).total_documents = 0 ∧
    generate_strategic_summary (aggregate_all_json_files []) (fun _ => Except.ok "report")
      = "No documents have been processed yet. Summary will appear as processing begins." ∧
    generate_strategic_summary (aggregate_all_json_files []) (fun _ => Except.ok "report")
      = generate_strategic_summary (aggregate_all_json_files [])
          (fun _ => Except.error "network down") :=
  ⟨rfl,
    (summary_short_circuits_on_empty_corpus (aggregate_all_json_files [])
      (fun _ => Except.ok "report") (fun _ => Except.error "network down") rfl).1,
    (summary_short_circuits_on_empty_corpus (aggregate_all_json_files [])
      (fun _ => Except.ok "report") (fun _ => Except.error "network down") rfl).2⟩

/-- A parsed object whose `document_type` value is a list: CPython raises
`TypeError: unhashable type` at line 158 and catches it at line 171, so
the file is counted in `total_documents` but bumps no counter. -/
def badTypeFile : JFile :=
  ⟨"bad.json", some (Json.obj [("document_type", Json.arr [])])⟩

/-- C10 counterexample: for the corpus `[badTypeFile]` every parsed file
is a JSON object, yet `total_documents = 1` while the document-type
counters sum to 0 — the unhashable `document_type` aborts that file at
the increment, refuting "equality when every parsed file is a JSON
object". -/
theorem non_object_documents_only_count_counterexample :
    (∀ f ∈ [badTypeFile], ∀ d, f.content = some d → d.isObj = true) ∧
    (aggregate_all_json_files [badTypeFile]).total_documents = 1 ∧
    countsSum (aggregate_all_json_files [badTypeFile]).document_types = 0 :=
  ⟨by decide, by decide, by decide⟩

/-- C10 (amended): a successfully parsed non-object document only
increments `total_documents`; the document-type counters sum to at most
`total_documents`, with equality when every parsed file is a JSON object
whose processing completes the document-type increment — i.e. raises no
`TypeError` in the entity/metadata steps and has a hashable
`document_type` value when that field is present (`typeBumpHappens`). -/
theorem non_object_documents_only_count (files : List JFile) :
    (∀ agg name data, data.isObj = false →
      aggStep agg ⟨name, some data⟩
        = { agg with total_documents := agg.total_documents + 1 }) ∧
    countsSum (aggregate_all_json_files files).document_types
      ≤ (aggregate_all_json_files files).total_documents ∧
    ((∀ f ∈ files, ∀ d, f.content = some d → typeBumpHappens f.name d = true) →
      countsSum (aggregate_all_json_files files).document_types
        = (aggregate_all_json_files files).total_documents) := by
  have hmaster := foldl_total_vs_sum files emptyAggregated
  have h0 : countsSum emptyAggregated.document_types = 0 := rfl
  have h0' : emptyAggregated.total_documents = 0 := rfl
  rw [h0, h0'] at hmaster
  have htot : (aggregate_all_json_files files).total_documents
      = (files.foldl aggStep emptyAggregated).total_documents := rfl
  have htyp : (aggregate_all_json_files files).document_types
      = (files.foldl aggStep emptyAggregated).document_types := rfl
  refine ⟨aggStep_nonObj, ?_, ?_⟩
  · rw [htot, htyp]
    omega
  · intro hall
    have hfilter : files.filter noBumpParsed = [] := by
      rw [List.filter_eq_nil_iff]
      intro f hf
      cases hc : f.content with
      | none => simp [noBumpParsed, hc]
      | some d => simp [noBumpParsed, hc, hall f hf d hc]
    rw [htot, htyp]
    rw [hfilter] at hmaster
    simp at hmaster
    omega

theorem non_object_documents_only_count_witness :
    aggStep emptyAggregated ⟨"stray.json", some (Json.arr [])⟩
      = { emptyAggregated with total_documents := emptyAggregated.total_documents + 1 } ∧
    (∀ f ∈ [jdFile1], ∀ d, f.content = some d → typeBumpHappens f.name d = true) ∧
    countsSum (aggregate_all_json_files [jdFile1]).document_types
      = (aggregate_all_json_files [jdFile1]).total_documents :=
  ⟨(non_object_documents_only_count []).1 emptyAggregated "stray.json" (Json.arr []) rfl,
    by decide,
    (non_object_documents_only_count [jdFile1]).2.2 (by decide)⟩

/-! ## Claim theorems for the credential gates (C8) -/

/-- C8 counterexample: in `generate_summary.py` a missing `GEMINI_API_KEY`
does not exit the process with a non-zero status — `load_api_key`'s
`sys.exit(1)` is caught by `except SystemExit: return False` in
`update_readme_with_summary`, `main` ignores the returned `False`, and the
interpreter exits with status 0 (here at the concrete environment
`[("PATH", "/usr/bin")]`, which lacks the key). -/
theorem missing_key_summary_program_exits_zero :
    load_api_key [("PATH", "/usr/bin")] = none ∧
    update_readme_with_summary true [("PATH", "/usr/bin")] (fun _ => true) = false ∧
    gs_exit_code true [("PATH", "/usr/bin")] (fun _ => true) = 0 :=
  ⟨by decide, by decide, rfl⟩

/-- C8 (amended): with the API key missing, the letter-grouping program
exits with status 1 before any further work (its outcome is independent
of everything after the gate), while the summary program's
`update_readme_with_summary` returns `False` without invoking the
aggregation/collaborator/write stage and the process exit status is 0. -/
theorem missing_key_gate_behavior (env : List (String × String)) :
    ((envGet env "GEMINI_API_KEY" = none ∨ envGet env "GEMINI_API_KEY" = some "") →
      ∀ runRest runRest2,
        lgl_main env runRest = Except.error 1 ∧
        lgl_main env runRest = lgl_main env runRest2) ∧
    (load_api_key env = none →
      ∀ readmeExists rest rest2,
        update_readme_with_summary readmeExists env rest = false ∧
        update_readme_with_summary readmeExists env rest
          = update_readme_with_summary readmeExists env rest2 ∧
        gs_exit_code readmeExists env rest = 0) := by
  constructor
  · intro h runRest runRest2
    rcases h with h | h
    · rw [lgl_main, lgl_main, h]
      exact ⟨rfl, rfl⟩
    · rw [lgl_main, lgl_main, h]
      exact ⟨rfl, rfl⟩
  · intro h readmeExists rest rest2
    cases readmeExists with
    | false => exact ⟨rfl, rfl, rfl⟩
    | true =>
      refine ⟨?_, ?_, rfl⟩ <;>
        simp [update_readme_with_summary, h]

theorem missing_key_gate_behavior_witness :
    (envGet [("PATH", "/usr/bin")] "GEMINI_API_KEY" = none ∨
      envGet [("PATH", "/usr/bin")] "GEMINI_API_KEY" = some "") ∧
    lgl_main [("PATH", "/usr/bin")] (fun _ => Except.ok ()) = Except.error 1 ∧
    update_readme_with_summary true [("PATH", "/usr/bin")] (fun _ => true) = false :=
  ⟨Or.inl (by decide),
    ((missing_key_gate_behavior [("PATH", "/usr/bin")]).1 (Or.inl (by decide))
      (fun _ => Except.ok ()) (fun _ => Except.ok ())).1,
    ((missing_key_gate_behavior [("PATH", "/usr/bin")]).2 (by decide) true
      (fun _ => true) (fun _ => true)).1⟩

end EpsFiles
